import Mathlib

/-!
# Verification of the `servable` crate's specification

A shallow embedding, in Lean 4, of the request-dispatch / response-contract
protocol and the image-transform pipeline of the `servable` Rust crate,
together with theorems settling the specification's claims about it.

Conventions:
* Rust `u32` values are `Nat`s; wrapping subtraction is made explicit with
  `% 2 ^ 32` where the source can underflow.
* Rust `f32`/`f64` arithmetic is modelled over `ℚ`; every concrete input
  appearing in a theorem below makes the corresponding float computation
  exact, so the rational model agrees with the machine floats there.
* Strings are processed as `List Char` (`String.data`); all inputs of
  interest are ASCII, where Rust's byte-indexed string handling and the
  character-level model coincide.
-/

set_option maxHeartbeats 2000000

namespace Servable

/-! ## Character/string utilities mirroring the Rust standard library -/

/-- Rust `char::is_whitespace`, restricted to the ASCII whitespace characters
(all inputs in this development are ASCII). -/
def isWs (c : Char) : Bool :=
  c = ' ' || c = '\t' || c = '\n' || c = '\r'

/-- Rust `str::trim` (leading and trailing whitespace removed). -/
def trimChars (l : List Char) : List Char :=
  ((l.dropWhile isWs).reverse.dropWhile isWs).reverse

/-- Rust `str::split(sep)`: split at every occurrence of `sep`,
keeping empty segments. -/
def splitSep (sep : Char) : List Char → List (List Char)
  | [] => [[]]
  | c :: rest =>
    match splitSep sep rest with
    | [] => [[]]
    | g :: gs => if c = sep then [] :: g :: gs else (c :: g) :: gs

/-! ## `MimeType` (src/crates/servable/src/mime.rs)

The crate's closed enumeration of media types.  `Other` carries an
unrecognized string verbatim. -/

/-- The `MimeType` enum of `mime.rs`. -/
inductive MimeType where
  | Other (s : String)
  | Blob
  | Aac | Flac | Midi | Mp3 | Oga | Opus | Wav | Weba
  | Avi | Mp4 | Mpeg | Ogv | Ts | WebmVideo | ThreeGp | ThreeG2
  | Apng | Avif | Bmp | Gif | Ico | Jpg | Png | Qoi | Svg | Tiff | Webp
  | Text | Css | Csv | Html | Javascript | Json | JsonLd | Xml
  | Pdf | Rtf
  | Arc | Bz | Bz2 | Gz | Jar | Ogg | Rar | SevenZ | Tar | Zip
  | Eot | Otf | Ttf | Woff | Woff2
  | Abiword | Azw | Cda | Csh | Doc | Docx | Epub | Ics | Mpkg
  | Odp | Ods | Odt | Php | Ppt | Pptx | Sh | Vsd | Xhtml | Xls | Xlsx | Xul

namespace MimeType

/-- `MimeType::from_str` (`impl FromStr for MimeType`, mime.rs).
The Rust parser is infallible: unknown strings become `Other`. -/
def fromStr (s : String) : MimeType :=
  match s with
  | "application/octet-stream" => Blob
  | "audio/aac" => Aac
  | "audio/flac" => Flac
  | "audio/midi" | "audio/x-midi" => Midi
  | "audio/mpeg" => Mp3
  | "audio/ogg" => Oga
  | "audio/wav" => Wav
  | "audio/webm" => Weba
  | "video/x-msvideo" => Avi
  | "video/mp4" => Mp4
  | "video/mpeg" => Mpeg
  | "video/ogg" => Ogv
  | "video/mp2t" => Ts
  | "video/webm" => WebmVideo
  | "video/3gpp" => ThreeGp
  | "video/3gpp2" => ThreeG2
  | "image/apng" => Apng
  | "image/avif" => Avif
  | "image/bmp" => Bmp
  | "image/gif" => Gif
  | "image/vnd.microsoft.icon" => Ico
  | "image/jpeg" | "image/jpg" => Jpg
  | "image/png" => Png
  | "image/svg+xml" => Svg
  | "image/tiff" => Tiff
  | "image/webp" => Webp
  | "image/qoi" => Qoi
  | "text/plain" => Text
  | "text/css" => Css
  | "text/csv" => Csv
  | "text/html" => Html
  | "text/javascript" => Javascript
  | "application/json" => Json
  | "application/ld+json" => JsonLd
  | "application/xml" | "text/xml" => Xml
  | "application/pdf" => Pdf
  | "application/rtf" => Rtf
  | "application/x-freearc" => Arc
  | "application/x-bzip" => Bz
  | "application/x-bzip2" => Bz2
  | "application/gzip" | "application/x-gzip" => Gz
  | "application/java-archive" => Jar
  | "application/ogg" => Ogg
  | "application/vnd.rar" => Rar
  | "application/x-7z-compressed" => SevenZ
  | "application/x-tar" => Tar
  | "application/zip" | "application/x-zip-compressed" => Zip
  | "application/vnd.ms-fontobject" => Eot
  | "font/otf" => Otf
  | "font/ttf" => Ttf
  | "font/woff" => Woff
  | "font/woff2" => Woff2
  | "application/x-abiword" => Abiword
  | "application/vnd.amazon.ebook" => Azw
  | "application/x-cdf" => Cda
  | "application/x-csh" => Csh
  | "application/msword" => Doc
  | "application/vnd.openxmlformats-officedocument.wordprocessingml.document" => Docx
  | "application/epub+zip" => Epub
  | "text/calendar" => Ics
  | "application/vnd.apple.installer+xml" => Mpkg
  | "application/vnd.oasis.opendocument.presentation" => Odp
  | "application/vnd.oasis.opendocument.spreadsheet" => Ods
  | "application/vnd.oasis.opendocument.text" => Odt
  | "application/x-httpd-php" => Php
  | "application/vnd.ms-powerpoint" => Ppt
  | "application/vnd.openxmlformats-officedocument.presentationml.presentation" => Pptx
  | "application/x-sh" => Sh
  | "application/vnd.visio" => Vsd
  | "application/xhtml+xml" => Xhtml
  | "application/vnd.ms-excel" => Xls
  | "application/vnd.openxmlformats-officedocument.spreadsheetml.sheet" => Xlsx
  | "application/vnd.mozilla.xul+xml" => Xul
  | _ => Other s

/-- `impl Display for MimeType` (mime.rs): the canonical string of each
variant.  Note `Opus` renders as `"audio/ogg"`, the same string as `Oga`. -/
def display : MimeType → String
  | Other x => x
  | Blob => "application/octet-stream"
  | Aac => "audio/aac"
  | Flac => "audio/flac"
  | Midi => "audio/midi"
  | Mp3 => "audio/mpeg"
  | Oga => "audio/ogg"
  | Opus => "audio/ogg"
  | Wav => "audio/wav"
  | Weba => "audio/webm"
  | Avi => "video/x-msvideo"
  | Mp4 => "video/mp4"
  | Mpeg => "video/mpeg"
  | Ogv => "video/ogg"
  | Ts => "video/mp2t"
  | WebmVideo => "video/webm"
  | ThreeGp => "video/3gpp"
  | ThreeG2 => "video/3gpp2"
  | Apng => "image/apng"
  | Avif => "image/avif"
  | Bmp => "image/bmp"
  | Gif => "image/gif"
  | Ico => "image/vnd.microsoft.icon"
  | Jpg => "image/jpeg"
  | Png => "image/png"
  | Svg => "image/svg+xml"
  | Tiff => "image/tiff"
  | Webp => "image/webp"
  | Qoi => "image/qoi"
  | Text => "text/plain"
  | Css => "text/css"
  | Csv => "text/csv"
  | Html => "text/html"
  | Javascript => "text/javascript"
  | Json => "application/json"
  | JsonLd => "application/ld+json"
  | Xml => "application/xml"
  | Pdf => "application/pdf"
  | Rtf => "application/rtf"
  | Arc => "application/x-freearc"
  | Bz => "application/x-bzip"
  | Bz2 => "application/x-bzip2"
  | Gz => "application/gzip"
  | Jar => "application/java-archive"
  | Ogg => "application/ogg"
  | Rar => "application/vnd.rar"
  | SevenZ => "application/x-7z-compressed"
  | Tar => "application/x-tar"
  | Zip => "application/zip"
  | Eot => "application/vnd.ms-fontobject"
  | Otf => "font/otf"
  | Ttf => "font/ttf"
  | Woff => "font/woff"
  | Woff2 => "font/woff2"
  | Abiword => "application/x-abiword"
  | Azw => "application/vnd.amazon.ebook"
  | Cda => "application/x-cdf"
  | Csh => "application/x-csh"
  | Doc => "application/msword"
  | Docx => "application/vnd.openxmlformats-officedocument.wordprocessingml.document"
  | Epub => "application/epub+zip"
  | Ics => "text/calendar"
  | Mpkg => "application/vnd.apple.installer+xml"
  | Odp => "application/vnd.oasis.opendocument.presentation"
  | Ods => "application/vnd.oasis.opendocument.spreadsheet"
  | Odt => "application/vnd.oasis.opendocument.text"
  | Php => "application/x-httpd-php"
  | Ppt => "application/vnd.ms-powerpoint"
  | Pptx => "application/vnd.openxmlformats-officedocument.presentationml.presentation"
  | Sh => "application/x-sh"
  | Vsd => "application/vnd.visio"
  | Xhtml => "application/xhtml+xml"
  | Xls => "application/vnd.ms-excel"
  | Xlsx => "application/vnd.openxmlformats-officedocument.spreadsheetml.sheet"
  | Xul => "application/vnd.mozilla.xul+xml"

end MimeType

/-! ## Model of the external `image` crate surface used by the transform engine

`ImageFormat` and its three lookup tables (`from_extension`,
`from_mime_type`, `to_mime_type`), plus the dimension behaviour of
`DynamicImage::resize` / `crop`.  These are external collaborators of the
repository (the `image` crate), embedded as the lookup data the crate
documents.  Pixel content is irrelevant to every claim below, so an image
is modelled by its dimensions. -/

/-- The `image::ImageFormat` enum (external crate). -/
inductive ImageFormat where
  | Png | Jpeg | Gif | WebP | Pnm | Tiff | Tga | Dds | Bmp | Ico
  | Hdr | OpenExr | Farbfeld | Avif | Qoi
  deriving DecidableEq, Repr

namespace ImageFormat

/-- `image::ImageFormat::from_extension` (external crate). -/
def fromExtension (ext : String) : Option ImageFormat :=
  match ext with
  | "avif" => some Avif
  | "jpg" | "jpeg" | "jfif" => some Jpeg
  | "png" => some Png
  | "gif" => some Gif
  | "webp" => some WebP
  | "tif" | "tiff" => some Tiff
  | "tga" => some Tga
  | "dds" => some Dds
  | "bmp" => some Bmp
  | "ico" => some Ico
  | "hdr" => some Hdr
  | "exr" => some OpenExr
  | "pbm" | "pam" | "ppm" | "pgm" => some Pnm
  | "ff" => some Farbfeld
  | "qoi" => some Qoi
  | _ => none

/-- `image::ImageFormat::from_mime_type` (external crate). -/
def fromMimeType (mime : String) : Option ImageFormat :=
  match mime with
  | "image/avif" => some Avif
  | "image/jpeg" => some Jpeg
  | "image/png" => some Png
  | "image/gif" => some Gif
  | "image/webp" => some WebP
  | "image/tiff" => some Tiff
  | "image/x-targa" | "image/x-tga" => some Tga
  | "image/vnd-ms.dds" => some Dds
  | "image/bmp" => some Bmp
  | "image/x-icon" | "image/vnd.microsoft.icon" => some Ico
  | "image/vnd.radiance" => some Hdr
  | "image/x-exr" => some OpenExr
  | "image/x-portable-bitmap" | "image/x-portable-graymap"
  | "image/x-portable-pixmap" | "image/x-portable-anymap" => some Pnm
  | "image/x-qoi" | "image/qoi" => some Qoi
  | _ => none

/-- `image::ImageFormat::to_mime_type` (external crate). -/
def toMimeType : ImageFormat → String
  | Avif => "image/avif"
  | Jpeg => "image/jpeg"
  | Png => "image/png"
  | Gif => "image/gif"
  | WebP => "image/webp"
  | Tiff => "image/tiff"
  | Tga => "image/x-targa"
  | Dds => "image/vnd-ms.dds"
  | Bmp => "image/bmp"
  | Ico => "image/x-icon"
  | Hdr => "image/vnd.radiance"
  | OpenExr => "image/x-exr"
  | Pnm => "image/x-portable-anymap"
  | Farbfeld => "application/octet-stream"
  | Qoi => "image/qoi"

end ImageFormat

/-- An in-memory decoded image, modelled by its dimensions (`u32` each);
pixel content plays no role in any claim settled here. -/
structure Image where
  width : Nat
  height : Nat
  deriving DecidableEq, Repr

/-- `u32` wrapping subtraction (`a - b` in release-mode Rust): explicit
`% 2 ^ 32`.  With overflow checks enabled the same expression panics when
`b > a`. -/
def u32Sub (a b : Nat) : Nat :=
  (a + 4294967296 - b) % 4294967296

/-- Rust `f as u32` for a non-negative float (truncation toward zero,
saturating at `u32::MAX`), on the rational model of the float. -/
def f32ToU32 (q : ℚ) : Nat :=
  if q ≤ 0 then 0 else min ⌊q⌋.toNat 4294967295

/-- `f64::round` (half away from zero) for a non-negative value, as used by
the `image` crate's `resize_dimensions`. -/
def ratRoundNat (q : ℚ) : Nat :=
  ⌊q + 1 / 2⌋.toNat

/-- The `image` crate's `resize_dimensions(width, height, nwidth, nheight,
fill)`: the aspect-ratio-preserving target size of `DynamicImage::resize`
(external crate, modelled over `ℚ`). -/
def resizeDimensions (width height nwidth nheight : Nat) (fill : Bool) : Nat × Nat :=
  let wratio : ℚ := (nwidth : ℚ) / (width : ℚ)
  let hratio : ℚ := (nheight : ℚ) / (height : ℚ)
  let ratio := if fill then max wratio hratio else min wratio hratio
  let nw := max (ratRoundNat ((width : ℚ) * ratio)) 1
  let nh := max (ratRoundNat ((height : ℚ) * ratio)) 1
  if nw > 4294967295 then
    let r : ℚ := 4294967295 / (width : ℚ)
    (4294967295, max (ratRoundNat ((height : ℚ) * r)) 1)
  else if nh > 4294967295 then
    let r : ℚ := 4294967295 / (height : ℚ)
    (max (ratRoundNat ((width : ℚ) * r)) 1, 4294967295)
  else (nw, nh)

/-- `DynamicImage::resize(nwidth, nheight, filter)` at the dimension level
(external crate): the output size is `resize_dimensions(..., fill = false)`. -/
def imageResize (img : Image) (nwidth nheight : Nat) : Image :=
  let (w, h) := resizeDimensions img.width img.height nwidth nheight false
  ⟨w, h⟩

/-- `DynamicImage::crop(x, y, width, height)` at the dimension level: the
`image` crate clamps the requested rectangle to the image bounds
(`crop_dimms`). -/
def imageCrop (img : Image) (x y width height : Nat) : Image :=
  let x' := min x img.width
  let y' := min y img.height
  let height' := min height (img.height - y')
  let width' := min width (img.width - x')
  ⟨width', height'⟩

/-! ## `PixelDim` (src/crates/servable/src/transform/pixeldim.rs) -/

/-- The `PixelDim` enum: an absolute pixel count, or a percentage of the
current image's width/height.  The `f32` payloads are modelled as `ℚ`
(exact for every value appearing in the claims). -/
inductive PixelDim where
  | Pixels (n : Nat)
  | WidthPercent (pct : ℚ)
  | HeightPercent (pct : ℚ)
  deriving DecidableEq, Repr

/-- Digit run to number. -/
def digitsToNat (l : List Char) : Nat :=
  l.foldl (fun acc c => acc * 10 + (c.toNat - 48)) 0

/-- Rust `u32::from_str` restricted to strings of digits and dots (the only
quantity shapes `PixelDim::from_str` can produce): nonempty all-digit
strings up to `u32::MAX` parse, everything else errors. -/
def parseU32 (l : List Char) : Option Nat :=
  if l ≠ [] ∧ l.all Char.isDigit ∧ digitsToNat l ≤ 4294967295 then
    some (digitsToNat l)
  else none

/-- Rust `f32::from_str` restricted to strings of digits and dots: at most
one dot and at least one digit, with the value modelled exactly in `ℚ`. -/
def parseF32 (l : List Char) : Option ℚ :=
  match splitSep '.' l with
  | [ip] =>
    if ip ≠ [] ∧ ip.all Char.isDigit then some (digitsToNat ip) else none
  | [ip, fp] =>
    if (ip ≠ [] ∨ fp ≠ []) ∧ ip.all Char.isDigit ∧ fp.all Char.isDigit then
      some ((digitsToNat ip : ℚ) + (digitsToNat fp : ℚ) / (10 : ℚ) ^ fp.length)
    else none
  | _ => none

namespace PixelDim

/-- `PixelDim::from_str` (pixeldim.rs): split the token at the first
character that is neither an ASCII digit nor `'.'`; the tail is the unit
(defaulting to `"px"`), the head the quantity. -/
def fromStr (s : List Char) : Except String PixelDim :=
  let numericEnd := s.findIdx? (fun c => !c.isDigit && c ≠ '.')
  let (quantity, unit) :=
    match numericEnd with
    | some x => (s.take x, s.drop x)
    | none => (s, "px".data)
  let quantity := trimChars quantity
  let unit := trimChars unit
  if unit = "vw".data then
    match parseF32 quantity with
    | some q => .ok (WidthPercent q)
    | none => .error ("invalid quantity " ++ String.mk quantity)
  else if unit = "vh".data then
    match parseF32 quantity with
    | some q => .ok (HeightPercent q)
    | none => .error ("invalid quantity " ++ String.mk quantity)
  else if unit = "px".data then
    match parseU32 quantity with
    | some n => .ok (Pixels n)
    | none => .error ("invalid quantity " ++ String.mk quantity)
  else .error ("invalid unit " ++ String.mk unit)

end PixelDim

/-! ## `MaxDimTransformer` (src/crates/servable/src/transform/transformers/maxdim.rs) -/

/-- Scale an image down until it fits in a `w × h` bounding box. -/
structure MaxDimTransformer where
  w : PixelDim
  h : PixelDim
  deriving DecidableEq, Repr

namespace MaxDimTransformer

/-- `MaxDimTransformer::target_dim`: resolve the two bounds against the
current dimensions (a `HeightPercent` width bound or `WidthPercent` height
bound is "no constraint"), and scale both dimensions by the smaller ratio
when some bound is exceeded. -/
def target_dim (t : MaxDimTransformer) (img_width img_height : Nat) : Nat × Nat :=
  let max_width : Option Nat :=
    match t.w with
    | .Pixels w => some w
    | .WidthPercent pct => some (f32ToU32 ((img_width : ℚ) * pct / 100))
    | .HeightPercent _ => none
  let max_height : Option Nat :=
    match t.h with
    | .Pixels h => some h
    | .HeightPercent pct => some (f32ToU32 ((img_height : ℚ) * pct / 100))
    | .WidthPercent _ => none
  if (max_width.map (fun x => decide (img_width ≤ x))).getD true
      && (max_height.map (fun x => decide (img_height ≤ x))).getD true then
    (img_width, img_height)
  else
    let width_ratio : ℚ := ((max_width.map (fun x => (x : ℚ) / (img_width : ℚ))).getD 1)
    let height_ratio : ℚ := ((max_height.map (fun x => (x : ℚ) / (img_height : ℚ))).getD 1)
    let ratio := min width_ratio height_ratio
    (f32ToU32 ((img_width : ℚ) * ratio), f32ToU32 ((img_height : ℚ) * ratio))

/-- `MaxDimTransformer::parse_args`: exactly two comma-separated
`PixelDim` tokens. -/
def parse_args (args : List Char) : Except String MaxDimTransformer := do
  let args := splitSep ',' args
  if h : args.length = 2 then
    let w ← PixelDim.fromStr (args.get ⟨0, by omega⟩)
    let hgt ← PixelDim.fromStr (args.get ⟨1, by omega⟩)
    return ⟨w, hgt⟩
  else
    .error ("expected 2 args, got " ++ toString args.length)

/-- `MaxDimTransformer::transform` (as `ImageTransformer`): resize only if
the computed target differs from the current dimensions. -/
def transform (t : MaxDimTransformer) (input : Image) : Image :=
  let (target_width, target_height) := t.target_dim input.width input.height
  if target_width ≠ input.width ∨ target_height ≠ input.height then
    imageResize input target_width target_height
  else input

end MaxDimTransformer

/-! ## `CropTransformer` (src/crates/servable/src/transform/transformers/crop.rs) -/

/-- The nine crop anchor directions. -/
inductive Direction where
  | North | East | South | West | Center
  | NorthEast | SouthEast | NorthWest | SouthWest
  deriving DecidableEq, Repr

namespace Direction

/-- `Direction::from_str` (derived by strum): each direction parses from
its one/two-letter form or its full name. -/
def fromStr (s : List Char) : Option Direction :=
  if s = "n".data ∨ s = "north".data then some North
  else if s = "e".data ∨ s = "east".data then some East
  else if s = "s".data ∨ s = "south".data then some South
  else if s = "w".data ∨ s = "west".data then some West
  else if s = "c".data ∨ s = "center".data then some Center
  else if s = "ne".data ∨ s = "northeast".data then some NorthEast
  else if s = "se".data ∨ s = "southeast".data then some SouthEast
  else if s = "nw".data ∨ s = "northwest".data then some NorthWest
  else if s = "sw".data ∨ s = "southwest".data then some SouthWest
  else none

end Direction

/-- Crop an image to (at most) the given size, anchored at `float`.
Its constructor's documentation promises: width is not reduced if `w`
exceeds the image width, height is not reduced if `h` exceeds the image
height, and a non-positive resolved dimension is a no-op. -/
structure CropTransformer where
  w : PixelDim
  h : PixelDim
  float : Direction
  deriving DecidableEq, Repr

namespace CropTransformer

/-- `CropTransformer::crop_dim`: resolve both `PixelDim`s against the
current image dimensions. -/
def crop_dim (c : CropTransformer) (img_width img_height : Nat) : Nat × Nat :=
  let crop_width :=
    match c.w with
    | .Pixels w => w
    | .WidthPercent pct => f32ToU32 ((img_width : ℚ) * pct / 100)
    | .HeightPercent pct => f32ToU32 ((img_height : ℚ) * pct / 100)
  let crop_height :=
    match c.h with
    | .Pixels h => h
    | .WidthPercent pct => f32ToU32 ((img_width : ℚ) * pct / 100)
    | .HeightPercent pct => f32ToU32 ((img_height : ℚ) * pct / 100)
  (crop_width, crop_height)

/-- `CropTransformer::crop_pos`: the anchor offset of the kept region.
The `u32` subtractions are wrapping (`u32Sub`); integer division
truncates. -/
def crop_pos (c : CropTransformer) (img_width img_height crop_width crop_height : Nat) :
    Nat × Nat :=
  match c.float with
  | .North => (u32Sub img_width crop_width / 2, 0)
  | .East => (u32Sub img_width crop_width, u32Sub img_height crop_height / 2)
  | .South => (u32Sub img_width crop_width / 2, u32Sub img_height crop_height)
  | .West => (0, u32Sub img_height crop_height / 2)
  | .Center => (u32Sub img_width crop_width / 2, u32Sub img_height crop_height / 2)
  | .NorthEast => (u32Sub img_width crop_width, 0)
  | .SouthEast => (u32Sub img_width crop_width, u32Sub img_height crop_height)
  | .NorthWest => (0, 0)
  | .SouthWest => (0, u32Sub img_height crop_height)

/-- `CropTransformer::parse_args`: two `PixelDim` tokens plus a direction,
comma-separated, each trimmed. -/
def parse_args (args : List Char) : Except String CropTransformer := do
  let args := splitSep ',' args
  if h : args.length = 3 then
    let w ← PixelDim.fromStr (trimChars (args.get ⟨0, by omega⟩))
    let hgt ← PixelDim.fromStr (trimChars (args.get ⟨1, by omega⟩))
    let dir := trimChars (args.get ⟨2, by omega⟩)
    match Direction.fromStr dir with
    | some d => return ⟨w, hgt, d⟩
    | none => .error ("invalid direction " ++ String.mk dir)
  else
    .error ("expected 3 args, got " ++ toString args.length)

/-- `CropTransformer::transform` (as `ImageTransformer`): crop only when
some resolved dimension is smaller than the image and both are positive. -/
def transform (c : CropTransformer) (input : Image) : Image :=
  let (crop_width, crop_height) := c.crop_dim input.width input.height
  if (crop_width < input.width ∨ crop_height < input.height)
      ∧ crop_width > 0 ∧ crop_height > 0 then
    let (x, y) := c.crop_pos input.width input.height crop_width crop_height
    imageCrop input x y crop_width crop_height
  else input

end CropTransformer

/-! ## `TransformerEnum` and its parser
(src/crates/servable/src/transform/transformers/mod.rs) -/

/-- The enum of all image transformers. -/
inductive TransformerEnum where
  | MaxDim (t : MaxDimTransformer)
  | Crop (t : CropTransformer)
  | Format (format : ImageFormat)
  deriving DecidableEq, Repr

/-- The balance-counting scan of `TransformerEnum::from_str`: starting just
after the opening parenthesis with balance 1, return the offset of the
matching `')'`, or `none` if the parentheses never balance. -/
def balanceScan : Int → Nat → List Char → Option Nat
  | _, _, [] => none
  | bal, pos, c :: rest =>
    let bal := if c = ')' then bal - 1 else if c = '(' then bal + 1 else bal
    if bal = 0 then some pos else balanceScan bal (pos + 1) rest

namespace TransformerEnum

/-- `TransformerEnum::from_str`: trim, locate `name '(' args ')'` with a
balance-counted closing parenthesis, reject trailing garbage, then
dispatch on the step name. -/
def fromStr (s₀ : List Char) : Except String TransformerEnum :=
  let s := trimChars s₀
  match s.findIdx? (· = '(') with
  | none =>
    .error ("invalid transformation " ++ String.mk s ++ ". Must look like name(args).")
  | some idx =>
    let name_len := idx + 1
    match balanceScan 1 0 (s.drop name_len) with
    | none => .error ("mismatched parenthesis in " ++ String.mk s)
    | some endOff =>
      let name := trimChars (s.take (name_len - 1))
      let args := trimChars ((s.drop name_len).take endOff)
      let trail := trimChars (s.drop (name_len + endOff + 1))
      if trail ≠ [] then
        .error ("invalid transformation " ++ String.mk s ++ ". Must look like name(args).")
      else if name = "maxdim".data then
        (MaxDimTransformer.parse_args args).map MaxDim
      else if name = "crop".data then
        (CropTransformer.parse_args args).map Crop
      else if name = "format".data then
        match ImageFormat.fromExtension (String.mk args) with
        | some f => .ok (Format f)
        | none => .error ("invalid image format " ++ String.mk args)
      else .error ("unknown transformation " ++ String.mk name)

/-- Whether a step is a `Format { .. }` step. -/
def isFormat : TransformerEnum → Bool
  | Format _ => true
  | _ => false

end TransformerEnum

/-! ## `TransformerChain` (src/crates/servable/src/transform/chain.rs) -/

/-- A sequence of transformations to apply to an image. -/
structure TransformerChain where
  steps : List TransformerEnum
  deriving DecidableEq, Repr

/-- The per-segment loop of `TransformerChain::from_str`: trim each
segment, skip empty ones, parse the rest, stopping at the first error. -/
def parseSteps : List (List Char) → Except String (List TransformerEnum)
  | [] => .ok []
  | seg :: rest =>
    let seg := trimChars seg
    if seg = [] then parseSteps rest
    else
      match TransformerEnum.fromStr seg with
      | .ok x => (parseSteps rest).map (x :: ·)
      | .error msg => .error ("invalid step `" ++ String.mk seg ++ "`: " ++ msg)

namespace TransformerChain

/-- `TransformerChain::mime_is_image`: `mime` can be transformed iff the
`image` crate recognizes it. -/
def mime_is_image (mime : String) : Bool :=
  (ImageFormat.fromMimeType mime).isSome

/-- `TransformerChain::from_str` (chain.rs): split on `';'`, parse the
non-empty segments, then run the chain-shape checks.  Note the first check
is literally `n_format > 2` in the source. -/
def fromStr (s : List Char) : Except String TransformerChain := do
  let steps ← parseSteps (splitSep ';' s)
  let n_format := steps.countP (fun x => x.isFormat)
  if n_format > 2 then
    .error "provide at most one format()"
  else if n_format = 1
      && !(match steps.getLast? with
        | some (.Format _) => true
        | _ => false) then
    .error "format() must be last"
  else
    return ⟨steps⟩

/-- String-level wrapper of `fromStr` matching the Rust signature. -/
def fromString (s : String) : Except String TransformerChain :=
  fromStr s.data

/-- `TransformerChain::transform_image`: run the geometric steps in order;
`Format` steps are skipped here. -/
def transform_image (tc : TransformerChain) (image : Image) : Image :=
  tc.steps.foldl
    (fun img step =>
      match step with
      | .Format _ => img
      | .MaxDim t => t.transform img
      | .Crop t => t.transform img)
    image

/-- `TransformerChain::output_mime`: the MIME this chain will produce for
input `input_mime`, or `none` when the input cannot be transformed.
(`Mime::from_str` on the crate's canonical codec strings always succeeds,
so it is the identity here.) -/
def output_mime (tc : TransformerChain) (input_mime : String) : Option String :=
  let mime :=
    (match tc.steps.getLast? with
      | some (.Format f) => some f.toMimeType
      | _ => none).getD input_mime
  (ImageFormat.fromMimeType mime).map (fun _ => mime)

end TransformerChain

/-- `TransformBytesError` (chain.rs): non-image input vs a codec error
during processing. -/
inductive TransformBytesError where
  | NotAnImage (s : String)
  | ImageError
  deriving DecidableEq, Repr

/-- The codec facilities of the external `image` crate used by
`transform_bytes`: content sniffing, decoding, and encoding.  `none`
models the corresponding fallible Rust call returning an error. -/
structure Codec where
  guess : List Nat → Option ImageFormat
  decode : ImageFormat → List Nat → Option Image
  encode : ImageFormat → Image → Option (List Nat)

namespace TransformerChain

/-- `TransformerChain::transform_bytes`: resolve the source codec from the
caller MIME (or sniff it), pick the output codec from a terminal `Format`
step (else the source codec), decode, run the chain, and re-encode. -/
def transform_bytes (codec : Codec) (tc : TransformerChain) (image_bytes : List Nat)
    (image_format : Option String) : Except TransformBytesError (String × List Nat) := do
  let format ←
    match image_format with
    | some x =>
      match ImageFormat.fromMimeType x with
      | some f => pure f
      | none => Except.error (.NotAnImage x)
    | none =>
      match codec.guess image_bytes with
      | some f => pure f
      | none => Except.error .ImageError
  let out_format :=
    (match tc.steps.getLast? with
      | some (.Format f) => some f
      | _ => none).getD format
  let img ←
    match codec.decode format image_bytes with
    | some i => pure i
    | none => Except.error .ImageError
  let img := tc.transform_image img
  let out_mime := out_format.toMimeType
  match codec.encode out_format img with
  | some out_bytes => return (out_mime, out_bytes)
  | none => Except.error .ImageError

end TransformerChain

/-! ## The response contract (src/crates/servable/src/types.rs) -/

/-- `RenderedBody`: the closed set of body variants. -/
inductive RenderedBody where
  | Static (d : List Nat)
  | Bytes (d : List Nat)
  | String (s : String)
  | Empty
  deriving DecidableEq, Repr

/-- The type of device that requested a page. -/
inductive DeviceType where
  | Mobile
  | Desktop
  deriving DecidableEq, Repr

/-- `RenderContext`: the per-request context handed to a `Servable`.
`query` is the key-unique query mapping (`BTreeMap`). -/
structure RenderContext where
  device_type : DeviceType
  route : String
  query : List (String × String)

/-- `BTreeMap::get` on the query mapping. -/
def queryGet (q : List (String × String)) (k : String) : Option String :=
  (q.find? (fun p => p.1 = k)).map (fun p => p.2)

/-- `Rendered<T>`: the universal response value.  MIME types are carried as
their canonical strings.  `ttl` is the `TimeDelta` in whole seconds.
(In `asset.rs`/`html.rs` of this snapshot the immutability field is spelled
`private`; `types.rs` and the router use `immutable`.) -/
structure Rendered (T : Type) where
  code : Nat
  headers : List (String × String)
  body : T
  mime : Option String
  ttl : Option Int
  immutable : Bool
  deriving DecidableEq, Repr

/-- `Rendered::<()>::with_body`. -/
def Rendered.with_body (r : Rendered Unit) (body : RenderedBody) : Rendered RenderedBody :=
  { code := r.code, headers := r.headers, body := body,
    mime := r.mime, ttl := r.ttl, immutable := r.immutable }

/-- The metadata quadruple the head/render invariant speaks about. -/
def Rendered.meta {T : Type} (r : Rendered T) : Nat × Option String × Option Int × Bool :=
  (r.code, r.mime, r.ttl, r.immutable)

/-! ## `StaticAsset` (src/crates/servable/src/servable/asset.rs, `image` feature) -/

/-- A static blob of bytes with a declared MIME and a cache ttl. -/
structure StaticAsset where
  bytes : List Nat
  mime : MimeType
  ttl : Option Int

namespace StaticAsset

/-- The shared transform-selection step of `head`/`render`: no transform
when the asset is not an image or no `t` query parameter is present;
otherwise parse the chain, propagating the parse error. -/
def pickTransform (a : StaticAsset) (ctx : RenderContext) :
    Except String (Option TransformerChain) :=
  let is_image := TransformerChain.mime_is_image a.mime.display
  match is_image, queryGet ctx.query "t" with
  | false, _ => .ok none
  | _, none => .ok none
  | true, some x => (TransformerChain.fromString x).map some

/-- `StaticAsset::head` (asset.rs): answer without doing any transform
work; on a transform chain the reported MIME is `output_mime`, falling
back to the asset's own MIME. -/
def head (a : StaticAsset) (ctx : RenderContext) : Rendered Unit :=
  match a.pickTransform ctx with
  | .error _ =>
    { code := 400, body := (), ttl := a.ttl, immutable := false,
      headers := [], mime := none }
  | .ok (some transform) =>
    { code := 200, body := (), ttl := a.ttl, immutable := false,
      headers := [],
      mime := some ((transform.output_mime a.mime.display).getD a.mime.display) }
  | .ok none =>
    { code := 200, body := (), ttl := a.ttl, immutable := false,
      headers := [], mime := some a.mime.display }

/-- `Display` of `TransformBytesError` (via `thiserror`). -/
def errDisplay : TransformBytesError → String
  | .NotAnImage s => s ++ " is not a valid image type"
  | .ImageError => "error while processing image"

/-- `StaticAsset::render` (asset.rs).  `codec` stands for the external
image codecs; `task_failed` models the `spawn_blocking` handle failing
(`task.await` returning `Err`), in which case the 500 response carries
`ttl: None`. -/
def render (codec : Codec) (task_failed : Bool) (a : StaticAsset) (ctx : RenderContext) :
    Rendered RenderedBody :=
  match a.pickTransform ctx with
  | .error err =>
    { code := 400, body := .String err, ttl := a.ttl, immutable := false,
      headers := [], mime := none }
  | .ok (some transform) =>
    if task_failed then
      { code := 500, body := .String "Error while transforming image",
        ttl := none, immutable := false, headers := [], mime := none }
    else
      match transform.transform_bytes codec a.bytes (some a.mime.display) with
      | .ok (mime, bytes) =>
        { code := 200, body := .Bytes bytes, ttl := a.ttl, immutable := false,
          headers := [], mime := some mime }
      | .error err =>
        { code := 500, body := .String (errDisplay err), ttl := a.ttl,
          immutable := false, headers := [], mime := none }
  | .ok none =>
    { code := 200, body := .Static a.bytes, ttl := a.ttl, immutable := false,
      headers := [], mime := some a.mime.display }

end StaticAsset

/-! ## `ServableRouter` (src/crates/servable/src/router.rs) -/

/-- HTTP methods relevant to dispatch. -/
inductive Method where
  | GET | HEAD | POST | PUT | DELETE | PATCH | OPTIONS
  deriving DecidableEq, Repr

/-- A `Servable` behind its trait interface: the pair of handler
functions the router dispatches to. -/
structure ServableM where
  head : RenderContext → Rendered Unit
  render : RenderContext → Rendered RenderedBody

/-- `Default404::head`: 404, html, cacheable one day, immutable. -/
def default404Head (_ctx : RenderContext) : Rendered Unit :=
  { code := 404, body := (), ttl := some 86400, immutable := true,
    headers := [], mime := some MimeType.Html.display }

/-- The built-in `Default404` servable; `render` reuses `head`. -/
def Default404 : ServableM where
  head := default404Head
  render ctx := (default404Head ctx).with_body .Empty

/-- The router's state: the frozen route table plus the not-found page. -/
structure ServableRouter where
  pages : String → Option ServableM
  notfound : ServableM

/-- `route.contains("//")`. -/
def hasDoubleSlash : List Char → Bool
  | a :: b :: rest => if a = '/' ∧ b = '/' then true else hasDoubleSlash (b :: rest)
  | _ => false

/-- One pass of `str::replace("//", "/")`: replace non-overlapping
occurrences left to right. -/
def replaceDD : List Char → List Char
  | a :: b :: rest =>
    if a = '/' ∧ b = '/' then '/' :: replaceDD rest
    else a :: replaceDD (b :: rest)
  | l => l

/-- The body of the router's normalization loop
`while new_route.contains("//") { new_route = new_route.replace("//", "/") }`,
with an explicit iteration bound (each pass strictly shortens the string,
so `l.length` passes always reach the fixpoint; see
`hasDoubleSlash_collapseSlashes` below). -/
def collapseLoop : Nat → List Char → List Char
  | 0, l => l
  | fuel + 1, l =>
    if hasDoubleSlash l then collapseLoop fuel (replaceDD l) else l

/-- The router's `//`-collapsing normalization. -/
def collapseSlashes (l : List Char) : List Char :=
  collapseLoop l.length l

/-- `str::trim_matches('/')`: strip every leading and trailing `'/'`. -/
def trimMatchesSlash (l : List Char) : List Char :=
  ((l.dropWhile (· = '/')).reverse.dropWhile (· = '/')).reverse

/-- `HeaderValue::from_str` validity: every byte is visible ASCII, space,
or horizontal tab (no other control bytes, no DEL). -/
def headerValueValid (l : List Char) : Bool :=
  l.all (fun c => c = '\t' || (32 ≤ c.toNat && c.toNat ≠ 127))

/-- `str::trim_end_matches(',')`. -/
def dropTrailingCommas (l : List Char) : List Char :=
  (l.reverse.dropWhile (· = ',')).reverse

/-- The `Cache-Control` value the router synthesizes from `ttl` and the
immutability flag (router.rs, "Tweak headers"). -/
def cacheControlValue (ttl : Option Int) (immutable : Bool) : String :=
  let max_age := max (ttl.getD 1) 1
  let value :=
    (if immutable then "immutable, " else "")
      ++ "public, " ++ "max-age=" ++ toString max_age ++ ", "
  String.mk (dropTrailingCommas (trimChars value.data))

/-- Case-insensitive header-name lookup is not needed: all names below are
already lowercase (as the `http` crate normalizes them). -/
def findHeader (hs : List (String × String)) (k : String) : Option String :=
  (hs.find? (fun p => p.1 = k)).map (fun p => p.2)

/-- The wire body of a response. -/
inductive WireBody where
  | bytes (d : List Nat)
  | str (s : String)
  | empty
  deriving DecidableEq, Repr

/-- A wire response. -/
structure ResponseW where
  code : Nat
  headers : List (String × String)
  body : WireBody
  deriving DecidableEq, Repr

/-- The "Tweak headers" block of `ServableRouter::call`: fill in
`Cache-Control`, `Accept-CH` and `Content-Type` when the servable left
them unset. -/
def tweakHeaders (rend : Rendered RenderedBody) : Rendered RenderedBody :=
  let hs := rend.headers
  let hs :=
    if (findHeader hs "cache-control").isNone then
      hs ++ [("cache-control", cacheControlValue rend.ttl rend.immutable)]
    else hs
  let hs :=
    if (findHeader hs "accept-ch").isNone then
      hs ++ [("accept-ch", "Sec-CH-UA-Mobile")]
    else hs
  let hs :=
    match findHeader hs "content-type", rend.mime with
    | none, some mime => hs ++ [("content-type", mime)]
    | _, _ => hs
  { rend with headers := hs }

/-- `RenderedBody` to wire representation (the final `match` of `call`). -/
def wireBody : RenderedBody → WireBody
  | .Static d => .bytes d
  | .Bytes d => .bytes d
  | .String s => .str s
  | .Empty => .empty

/-- `ServableRouter::call` (`impl Service for ServableRouter`): method
gate, path-normalization redirect, exact route lookup with 404 fallback,
HEAD/GET dispatch, header finalization. -/
def ServableRouter.call (r : ServableRouter) (method : Method) (path : String)
    (query : List (String × String)) (device_type : DeviceType) : ResponseW :=
  if method ≠ .GET ∧ method ≠ .HEAD then
    { code := 405, headers := [("accept", "GET,HEAD")], body := .empty }
  else
    let route := path
    if (route.data.getLast? = some '/' ∧ route ≠ "/") ∨ hasDoubleSlash route.data then
      let new_route := trimMatchesSlash (collapseSlashes route.data)
      let loc := '/' :: new_route
      if headerValueValid loc then
        { code := 308, headers := [("location", String.mk loc)], body := .empty }
      else
        { code := 400, headers := [], body := .empty }
    else
      let ctx : RenderContext := ⟨device_type, route, query⟩
      let page := (r.pages ctx.route).getD r.notfound
      let rend :=
        if method = .HEAD then (page.head ctx).with_body .Empty
        else page.render ctx
      let rend := tweakHeaders rend
      { code := rend.code, headers := rend.headers, body := wireBody rend.body }

/-- The claim's description of the redirect target, following the spec's
words: "the path with repeats collapsed and the trailing separator
trimmed" (the root path keeps its separator).  Compared against the
router's computation in the C9 theorem. -/
def specNormalize (l : List Char) : List Char :=
  let c := collapseSlashes l
  if c.getLast? = some '/' ∧ c ≠ ['/'] then c.dropLast else c

/-- A codec valuation refuting byte-passthrough: decoding always yields a
1×1 image, encoding always yields `[42]`. -/
def toyCodec : Codec where
  guess _ := some .Png
  decode _ _ := some ⟨1, 1⟩
  encode _ _ := some [42]

/-- A codec valuation on which every decode fails (corrupt image data). -/
def failingCodec : Codec where
  guess _ := none
  decode _ _ := none
  encode _ _ := none

/-! # Theorems

Helper lemmas first, then one theorem per claim (with witnesses and
counterexamples as separate closed theorems). -/

/-- `u32` subtraction agrees with `Nat` subtraction when it cannot
underflow. -/
theorem u32Sub_of_le {a b : Nat} (hba : b ≤ a) (ha : a < 4294967296) :
    u32Sub a b = a - b := by
  unfold u32Sub
  omega

/-- C3: `MimeType`'s round-trip law fails at `Opus`: its `Display` output
is `"audio/ogg"`, which `from_str` maps back to `Oga`, not `Opus` — even
though the `Display` doc comment asserts
`MimeType::from(x.to_string()) == x` always holds. -/
theorem C3_opus_display_roundtrip :
    MimeType.display .Opus = "audio/ogg"
      ∧ MimeType.fromStr (MimeType.display .Opus) = .Oga
      ∧ MimeType.Oga ≠ MimeType.Opus :=
  ⟨rfl, rfl, fun h => MimeType.noConfusion h⟩

/-- C2: the chain-shape check is `n_format > 2` in the source, so a chain
with exactly two `format()` steps parses successfully — even one where the
formats are not last — although the parser's own error messages promise
"at most one format()".  A single non-terminal `format()` and three
`format()`s are still rejected. -/
theorem C2_two_formats_parse :
    TransformerChain.fromString "format(png);format(gif)"
        = .ok ⟨[.Format .Png, .Format .Gif]⟩
      ∧ TransformerChain.fromString "format(png);format(gif);maxdim(1,1)"
        = .ok ⟨[.Format .Png, .Format .Gif, .MaxDim ⟨.Pixels 1, .Pixels 1⟩]⟩
      ∧ TransformerChain.fromString "format(png);maxdim(10,10)"
        = .error "format() must be last"
      ∧ TransformerChain.fromString "format(png);format(gif);format(png)"
        = .error "provide at most one format()" :=
  ⟨rfl, rfl, rfl, rfl⟩

/-- `f32ToU32` of a natural value below `u32::MAX` is that value. -/
theorem f32ToU32_coe (n : Nat) (hn : n ≤ 4294967295) : f32ToU32 (n : ℚ) = n := by
  unfold f32ToU32
  rcases Nat.eq_zero_or_pos n with h0 | h0
  · subst h0; norm_num
  · have hpos : ¬((n : ℚ) ≤ 0) := by
      rw [not_le]
      exact_mod_cast h0
    rw [if_neg hpos, Int.floor_natCast]
    simp [min_eq_left hn]

theorem f32ToU32_eq {q : ℚ} {n : Nat} (h : q = (n : ℚ)) (hn : n ≤ 4294967295) :
    f32ToU32 q = n := by
  rw [h]
  exact f32ToU32_coe n hn

/-- `ratRoundNat` of an exact natural value is that value. -/
theorem ratRoundNat_coe (n : Nat) : ratRoundNat (n : ℚ) = n := by
  unfold ratRoundNat
  have : ⌊(n : ℚ) + 1 / 2⌋ = (n : Int) := by
    rw [Int.floor_eq_iff]
    constructor
    · push_cast; linarith
    · push_cast; linarith
  rw [this]
  simp

theorem ratRoundNat_eq {q : ℚ} {n : Nat} (h : q = (n : ℚ)) : ratRoundNat q = n := by
  rw [h]
  exact ratRoundNat_coe n

/-- `maxdim(50vw, 100)` on 200×100: the width bound resolves to 100 px
(50% of 200), which the image exceeds, so the scale ratio is
min(100/200, 100/100) = 1/2, giving a 100×50 target. -/
theorem maxdim_50vw_100_target_dim :
    (MaxDimTransformer.mk (.WidthPercent 50) (.Pixels 100)).target_dim 200 100 = (100, 50) := by
  simp only [MaxDimTransformer.target_dim, Nat.cast_ofNat,
    f32ToU32_eq (show (200 : ℚ) * 50 / 100 = ((100 : Nat) : ℚ) by norm_num) (by norm_num)]
  norm_num [Option.map, Option.getD]
  exact ⟨f32ToU32_eq (by norm_num) (by norm_num), f32ToU32_eq (by norm_num) (by norm_num)⟩

/-- The `image` crate's resize of a 200×100 image into a 100×50 box keeps
the aspect ratio: ratio 1/2, output 100×50. -/
theorem imageResize_200x100_100x50 : imageResize ⟨200, 100⟩ 100 50 = ⟨100, 50⟩ := by
  simp only [imageResize, resizeDimensions, Nat.cast_ofNat]
  norm_num [inf_eq_min, min_def,
    ratRoundNat_eq (show (100 : ℚ) = ((100 : Nat) : ℚ) by norm_num),
    ratRoundNat_eq (show (50 : ℚ) = ((50 : Nat) : ℚ) by norm_num)]

theorem maxdim_50vw_100_transform :
    (MaxDimTransformer.mk (.WidthPercent 50) (.Pixels 100)).transform ⟨200, 100⟩
      = ⟨100, 50⟩ := by
  simp only [MaxDimTransformer.transform, maxdim_50vw_100_target_dim]
  norm_num [imageResize_200x100_100x50]

/-- C6 (counterexample): `maxdim(50vw, 100)` on a 200×100 image does not
scale by 0.25 to 50×25; `target_dim` yields 100×50 (the width bound
resolves to 100 px, so the ratio is min(0.5, 1.0) = 0.5). -/
theorem C6_counterexample :
    (MaxDimTransformer.mk (.WidthPercent 50) (.Pixels 100)).target_dim 200 100 = (100, 50)
      ∧ (MaxDimTransformer.mk (.WidthPercent 50) (.Pixels 100)).target_dim 200 100
          ≠ (50, 25) := by
  refine ⟨maxdim_50vw_100_target_dim, ?_⟩
  rw [maxdim_50vw_100_target_dim]
  decide

/-- C6 (amended): `maxdim(50vw, 100)` on a 200×100 image resolves the
width bound to 100 px, computes ratio min(100/200, 100/100) = 0.5, and
produces a 100×50 output. -/
theorem C6_maxdim_50vw_100 :
    (MaxDimTransformer.mk (.WidthPercent 50) (.Pixels 100)).target_dim 200 100 = (100, 50)
      ∧ (MaxDimTransformer.mk (.WidthPercent 50) (.Pixels 100)).transform ⟨200, 100⟩
          = ⟨100, 50⟩ :=
  ⟨maxdim_50vw_100_target_dim, maxdim_50vw_100_transform⟩

/-- C7: the nine-direction anchor table of `crop_pos`, with truncating
division, whenever the resolved crop fits the image (no underflow), plus
the concrete `crop(50,50,c)` on 200×100: dimensions (50, 50), offset
(75, 25), output 50×50. -/
theorem C7_crop_anchor_table (W H cw ch : Nat) (wd hd' : PixelDim)
    (hW : W < 4294967296) (hH : H < 4294967296) (hcw : cw ≤ W) (hch : ch ≤ H) :
    ((CropTransformer.mk wd hd' .North).crop_pos W H cw ch = ((W - cw) / 2, 0)
      ∧ (CropTransformer.mk wd hd' .South).crop_pos W H cw ch = ((W - cw) / 2, H - ch)
      ∧ (CropTransformer.mk wd hd' .East).crop_pos W H cw ch = (W - cw, (H - ch) / 2)
      ∧ (CropTransformer.mk wd hd' .West).crop_pos W H cw ch = (0, (H - ch) / 2)
      ∧ (CropTransformer.mk wd hd' .Center).crop_pos W H cw ch
          = ((W - cw) / 2, (H - ch) / 2)
      ∧ (CropTransformer.mk wd hd' .NorthEast).crop_pos W H cw ch = (W - cw, 0)
      ∧ (CropTransformer.mk wd hd' .NorthWest).crop_pos W H cw ch = (0, 0)
      ∧ (CropTransformer.mk wd hd' .SouthEast).crop_pos W H cw ch = (W - cw, H - ch)
      ∧ (CropTransformer.mk wd hd' .SouthWest).crop_pos W H cw ch = (0, H - ch))
      ∧ (CropTransformer.mk (.Pixels 50) (.Pixels 50) .Center).crop_dim 200 100 = (50, 50)
      ∧ (CropTransformer.mk (.Pixels 50) (.Pixels 50) .Center).crop_pos 200 100 50 50
          = (75, 25)
      ∧ (CropTransformer.mk (.Pixels 50) (.Pixels 50) .Center).transform ⟨200, 100⟩
          = ⟨50, 50⟩ := by
  refine ⟨⟨?_, ?_, ?_, ?_, ?_, ?_, ?_, ?_, ?_⟩, by decide, by decide, by decide⟩
    <;> simp [CropTransformer.crop_pos, u32Sub_of_le hcw hW, u32Sub_of_le hch hH]

/-- C7 (witness): the anchor table applied at a 200×100 image with a
50×50 crop. -/
theorem C7_crop_anchor_table_witness :
    (CropTransformer.mk (PixelDim.Pixels 0) (PixelDim.Pixels 0) .North).crop_pos
        200 100 50 50 = ((200 - 50) / 2, 0) :=
  (C7_crop_anchor_table 200 100 50 50 (.Pixels 0) (.Pixels 0)
    (by decide) (by decide) (by decide) (by decide)).1.1

/-- C8: `crop(300,50,n)` on a 200×100 image passes the guard in
`CropTransformer::transform` (50 < 100), and `crop_pos` then computes
`(200 - 300) / 2` in `u32`, which underflows: it wraps to offset
2147483598 (and panics under overflow checks).  The `image` crate clamps
the resulting rectangle, so the output is an empty 0×50 image — the width
is reduced even though the requested width 300 exceeds the image width
200, contrary to the claim and `CropTransformer::new`'s documentation. -/
theorem C8_crop_underflow_at_north :
    (CropTransformer.mk (.Pixels 300) (.Pixels 50) .North).crop_dim 200 100 = (300, 50)
      ∧ ((300 < 200 ∨ 50 < 100) ∧ 300 > 0 ∧ 50 > 0)
      ∧ u32Sub 200 300 = 4294967196
      ∧ (CropTransformer.mk (.Pixels 300) (.Pixels 50) .North).crop_pos 200 100 300 50
          = (2147483598, 0)
      ∧ (CropTransformer.mk (.Pixels 300) (.Pixels 50) .North).transform ⟨200, 100⟩
          = ⟨0, 50⟩ := by
  refine ⟨by decide, by decide, by decide, by decide, by decide⟩

/-! ## Lemmas about the chain parser's segment handling (for C10) -/

theorem splitSep_ne_nil (sep : Char) (l : List Char) : splitSep sep l ≠ [] := by
  cases l with
  | nil => simp [splitSep]
  | cons c rest =>
    simp only [splitSep]
    cases h : splitSep sep rest with
    | nil => simp
    | cons g gs => by_cases hc : c = sep <;> simp [hc]

theorem splitSep_append_sep (sep : Char) :
    ∀ l : List Char, splitSep sep (l ++ [sep]) = splitSep sep l ++ [[]]
  | [] => by simp [splitSep]
  | c :: rest => by
    have ih := splitSep_append_sep sep rest
    have hLHS : splitSep sep ((c :: rest) ++ [sep])
        = match splitSep sep (rest ++ [sep]) with
          | [] => [[]]
          | g :: gs => if c = sep then [] :: g :: gs else (c :: g) :: gs := rfl
    have hRHS : splitSep sep (c :: rest)
        = match splitSep sep rest with
          | [] => [[]]
          | g :: gs => if c = sep then [] :: g :: gs else (c :: g) :: gs := rfl
    rw [hLHS, hRHS, ih]
    cases h : splitSep sep rest with
    | nil => exact absurd h (splitSep_ne_nil sep rest)
    | cons g gs =>
      by_cases hc : c = sep <;> simp [hc]

theorem splitSep_cons_sep (sep : Char) (l : List Char) :
    splitSep sep (sep :: l) = [] :: splitSep sep l := by
  simp only [splitSep]
  cases h : splitSep sep l with
  | nil => exact absurd h (splitSep_ne_nil sep l)
  | cons g gs => simp

theorem parseSteps_cons (seg : List Char) (rest : List (List Char)) :
    parseSteps (seg :: rest)
      = if trimChars seg = [] then parseSteps rest
        else
          match TransformerEnum.fromStr (trimChars seg) with
          | .ok x => (parseSteps rest).map (x :: ·)
          | .error msg =>
            .error ("invalid step `" ++ String.mk (trimChars seg) ++ "`: " ++ msg) := rfl

theorem parseSteps_append_empty :
    ∀ gs : List (List Char), parseSteps (gs ++ [[]]) = parseSteps gs
  | [] => rfl
  | seg :: rest => by
    simp only [List.cons_append, parseSteps_cons, parseSteps_append_empty rest]

/-- A whitespace-only list trims to nothing. -/
theorem trimChars_eq_nil_of_ws {w : List Char} (h : w.all isWs = true) :
    trimChars w = [] := by
  have hd : w.dropWhile isWs = [] := by
    rw [List.dropWhile_eq_nil_iff]
    intro x hx
    exact (List.all_eq_true.mp h) x hx
  simp [trimChars, hd]

/-- C10: the chain parser skips empty and whitespace-only segments: a
trailing `';'`, a leading `';'`, and any whitespace-only segment leave the
parse unchanged; `""`, `";"` parse to the zero-step chain, and
`"maxdim(1,1);;"` and `" ; ;maxdim(1,1); ;"` parse to the single-step
chain. -/
theorem C10_parser_skips_empty_segments :
    (∀ s : String,
      TransformerChain.fromStr (s.data ++ [';']) = TransformerChain.fromStr s.data)
      ∧ (∀ s : String,
        TransformerChain.fromStr (';' :: s.data) = TransformerChain.fromStr s.data)
      ∧ (∀ (w : List Char) (gs : List (List Char)), w.all isWs = true →
        parseSteps (w :: gs) = parseSteps gs)
      ∧ TransformerChain.fromString "" = .ok ⟨[]⟩
      ∧ TransformerChain.fromString ";" = .ok ⟨[]⟩
      ∧ TransformerChain.fromString "maxdim(1,1);;"
          = .ok ⟨[.MaxDim ⟨.Pixels 1, .Pixels 1⟩]⟩
      ∧ TransformerChain.fromString " ; ;maxdim(1,1); ;"
          = .ok ⟨[.MaxDim ⟨.Pixels 1, .Pixels 1⟩]⟩ := by
  refine ⟨?_, ?_, ?_, rfl, rfl, rfl, rfl⟩
  · intro s
    simp only [TransformerChain.fromStr, splitSep_append_sep, parseSteps_append_empty]
  · intro s
    simp only [TransformerChain.fromStr, splitSep_cons_sep, parseSteps_cons]
    simp [trimChars]
  · intro w gs h
    simp only [parseSteps_cons, trimChars_eq_nil_of_ws h]
    simp

/-- C10 (witness): appending a `';'` to a parsed chain string changes
nothing. -/
theorem C10_witness :
    TransformerChain.fromStr ("maxdim(1,1)".data ++ [';'])
      = TransformerChain.fromStr "maxdim(1,1)".data :=
  C10_parser_skips_empty_segments.1 "maxdim(1,1)"

/-- C4: a request with any non-GET/non-HEAD method (shown for `POST`) is
rejected with 405 before any route lookup: the response is the same for
every route table and every handler.  But the response carries the header
`accept: GET,HEAD` (the source inserts `header::ACCEPT`), and no `allow`
header at all — the claim (and HTTP) require `Allow`. -/
theorem C4_post_rejected_before_lookup (r : ServableRouter) (path : String)
    (q : List (String × String)) (d : DeviceType) :
    r.call .POST path q d
        = { code := 405, headers := [("accept", "GET,HEAD")], body := .empty }
      ∧ findHeader (r.call .POST path q d).headers "allow" = none
      ∧ findHeader (r.call .POST path q d).headers "accept" = some "GET,HEAD" :=
  ⟨rfl, rfl, rfl⟩

/-! ## Lemmas about the `//`-collapsing normalization (for C9) -/

theorem replaceDD_cons2 (a b : Char) (rest : List Char) :
    replaceDD (a :: b :: rest)
      = if a = '/' ∧ b = '/' then '/' :: replaceDD rest
        else a :: replaceDD (b :: rest) := rfl

theorem hasDoubleSlash_cons2 (a b : Char) (rest : List Char) :
    hasDoubleSlash (a :: b :: rest)
      = if a = '/' ∧ b = '/' then true else hasDoubleSlash (b :: rest) := rfl

theorem replaceDD_length_le : ∀ l : List Char, (replaceDD l).length ≤ l.length
  | [] => Nat.le_refl _
  | [_] => Nat.le_refl _
  | a :: b :: rest => by
    have ih1 := replaceDD_length_le rest
    have ih2 := replaceDD_length_le (b :: rest)
    rw [replaceDD_cons2]
    by_cases h : a = '/' ∧ b = '/'
    · rw [if_pos h]
      simp only [List.length_cons] at *
      omega
    · rw [if_neg h]
      simp only [List.length_cons] at *
      omega

theorem replaceDD_length_lt :
    ∀ l : List Char, hasDoubleSlash l = true → (replaceDD l).length < l.length
  | [], h => by simp [hasDoubleSlash] at h
  | [a], h => by simp [hasDoubleSlash] at h
  | a :: b :: rest, h => by
    rw [replaceDD_cons2]
    by_cases hab : a = '/' ∧ b = '/'
    · rw [if_pos hab]
      have := replaceDD_length_le rest
      simp only [List.length_cons] at *
      omega
    · have h' : hasDoubleSlash (b :: rest) = true := by
        rw [hasDoubleSlash_cons2, if_neg hab] at h
        exact h
      rw [if_neg hab]
      have := replaceDD_length_lt (b :: rest) h'
      simp only [List.length_cons] at *
      omega

/-- `l.length` iterations suffice for the collapsing loop to reach its
fixpoint: the result contains no `"//"`. -/
theorem collapseLoop_no_dd :
    ∀ (fuel : Nat) (l : List Char), l.length ≤ fuel →
      hasDoubleSlash (collapseLoop fuel l) = false
  | 0, l, h => by
    have : l = [] := List.length_eq_zero.mp (Nat.le_zero.mp h)
    subst this
    rfl
  | fuel + 1, l, h => by
    unfold collapseLoop
    by_cases hd : hasDoubleSlash l = true
    · rw [if_pos hd]
      exact collapseLoop_no_dd fuel (replaceDD l)
        (by have := replaceDD_length_lt l hd; omega)
    · rw [if_neg hd]
      exact Bool.not_eq_true _ |>.mp hd

theorem hasDoubleSlash_collapseSlashes (l : List Char) :
    hasDoubleSlash (collapseSlashes l) = false :=
  collapseLoop_no_dd l.length l (Nat.le_refl _)

theorem replaceDD_head :
    ∀ l : List Char, l.head? = some '/' → (replaceDD l).head? = some '/'
  | [], h => by simp at h
  | [a], h => by simpa [replaceDD] using h
  | a :: b :: rest, h => by
    have ha : a = '/' := by simpa using h
    rw [replaceDD_cons2]
    by_cases hab : a = '/' ∧ b = '/'
    · rw [if_pos hab]; rfl
    · rw [if_neg hab]
      simpa using ha

theorem collapseLoop_head :
    ∀ (fuel : Nat) (l : List Char), l.head? = some '/' →
      (collapseLoop fuel l).head? = some '/'
  | 0, _, h => h
  | fuel + 1, l, h => by
    unfold collapseLoop
    by_cases hd : hasDoubleSlash l = true
    · rw [if_pos hd]
      exact collapseLoop_head fuel (replaceDD l) (replaceDD_head l h)
    · rw [if_neg hd]
      exact h

theorem collapseSlashes_head (l : List Char) (h : l.head? = some '/') :
    (collapseSlashes l).head? = some '/' :=
  collapseLoop_head l.length l h

/-- A `"//"` anywhere below the head is a `"//"` of the whole list. -/
theorem hasDoubleSlash_cons_of {l : List Char} (c : Char)
    (h : hasDoubleSlash l = true) : hasDoubleSlash (c :: l) = true := by
  cases l with
  | nil => simp [hasDoubleSlash] at h
  | cons b rest =>
    rw [hasDoubleSlash_cons2]
    by_cases hab : c = '/' ∧ b = '/'
    · rw [if_pos hab]
    · rw [if_neg hab]
      exact h

theorem hasDoubleSlash_concat_pair :
    ∀ a : List Char, hasDoubleSlash (a ++ ['/', '/']) = true
  | [] => rfl
  | c :: rest => by
    rw [List.cons_append]
    exact hasDoubleSlash_cons_of c (hasDoubleSlash_concat_pair rest)

/-- After the head `'/'` of a collapsed path the next character is not a
`'/'` again. -/
theorem second_ne_slash {t : List Char}
    (hND : hasDoubleSlash ('/' :: t) = false) : t.head? ≠ some '/' := by
  cases t with
  | nil => simp
  | cons b rest =>
    rw [hasDoubleSlash_cons2] at hND
    by_cases hb : b = '/'
    · rw [if_pos ⟨rfl, hb⟩] at hND
      exact absurd hND (by simp)
    · simpa using hb

/-- For a collapsed (`"//"`-free) path starting with `'/'`, the router's
`format!("/{}", route.trim_matches('/'))` equals the spec's "trailing
separator trimmed" description. -/
theorem slash_trim_eq_dropLast :
    ∀ l : List Char, l.head? = some '/' → hasDoubleSlash l = false →
      '/' :: trimMatchesSlash l
        = if l.getLast? = some '/' ∧ l ≠ ['/'] then l.dropLast else l
  | [], h, _ => by simp at h
  | c :: t, h, hND => by
    have hc : c = '/' := by simpa using h
    subst hc
    have hdrop : ('/' :: t).dropWhile (fun x => x = '/') = t.dropWhile (fun x => x = '/') := by
      simp [List.dropWhile_cons]
    have hdropt : t.dropWhile (fun x => x = '/') = t := by
      cases ht : t with
      | nil => rfl
      | cons b rest =>
        have hb : b ≠ '/' := by
          have := second_ne_slash hND
          rw [ht] at this
          simpa using this
        simp [List.dropWhile_cons, hb]
    cases hrev : t.reverse with
    | nil =>
      have ht : t = [] := by simpa using congrArg List.reverse hrev
      subst ht
      simp [trimMatchesSlash]
    | cons y u =>
      have ht : t = u.reverse ++ [y] := by
        have := congrArg List.reverse hrev
        simpa using this
      have htne : t ≠ [] := by simp [ht]
      by_cases hy : y = '/'
      · subst hy
        have hu : u.head? ≠ some '/' := by
          intro hu
          cases hu2 : u with
          | nil => rw [hu2] at hu; simp at hu
          | cons z u' =>
            rw [hu2] at hu
            have hz : z = '/' := by simpa using hu
            subst hz
            rw [hu2] at ht
            have : t = u'.reverse ++ ['/', '/'] := by
              rw [ht]
              simp
            have hdd : hasDoubleSlash t = true := by
              rw [this]
              exact hasDoubleSlash_concat_pair u'.reverse
            have : hasDoubleSlash ('/' :: t) = true := hasDoubleSlash_cons_of '/' hdd
            rw [this] at hND
            exact absurd hND (by simp)
        have hdropu : u.dropWhile (fun x => x = '/') = u := by
          cases hu2 : u with
          | nil => rfl
          | cons z u' =>
            have hz : z ≠ '/' := by
              rw [hu2] at hu
              simpa using hu
            simp [List.dropWhile_cons, hz]
        have hlast : ('/' :: t).getLast? = some '/' := by
          rw [ht, ← List.cons_append, List.getLast?_concat]
        have hne : ('/' :: t) ≠ ['/'] := by simp [htne]
        rw [if_pos ⟨hlast, hne⟩]
        have hTrim : trimMatchesSlash ('/' :: t) = u.reverse := by
          unfold trimMatchesSlash
          rw [hdrop, hdropt, ht]
          simp [hdropu]
        rw [hTrim, List.dropLast_cons_of_ne_nil htne, ht, List.dropLast_concat]
      · have hlast : ('/' :: t).getLast? = some y := by
          rw [ht, ← List.cons_append, List.getLast?_concat]
        have hcond : ¬(('/' :: t).getLast? = some '/' ∧ ('/' :: t) ≠ ['/']) := by
          rw [hlast]
          intro hco
          exact hy (by simpa using hco.1)
        rw [if_neg hcond]
        have hTrim : trimMatchesSlash ('/' :: t) = t := by
          unfold trimMatchesSlash
          rw [hdrop, hdropt, hrev]
          simp [List.dropWhile_cons, hy]
          exact ht.symm
        rw [hTrim]

/-- C9: on any GET/HEAD request whose path has a trailing separator (and
is not exactly `/`) or contains `//`, the router answers 308 with
`Location` set to the normalized path — equal, for paths starting with
`/`, to the path with repeats collapsed and the trailing separator
trimmed — without consulting the route table or any handler (the response
is identical for every router, query and client); `/a//b/` normalizes to
`/a/b`, and the response is never a 200. -/
theorem C9_redirect_normalization (r r' : ServableRouter) (method : Method)
    (path : String) (q q' : List (String × String)) (d d' : DeviceType)
    (hm : method = .GET ∨ method = .HEAD)
    (hp : (path.data.getLast? = some '/' ∧ path ≠ "/") ∨ hasDoubleSlash path.data = true)
    (hroot : path.data.head? = some '/')
    (hv : headerValueValid ('/' :: trimMatchesSlash (collapseSlashes path.data)) = true) :
    r.call method path q d
        = { code := 308,
            headers := [("location",
              String.mk ('/' :: trimMatchesSlash (collapseSlashes path.data)))],
            body := .empty }
      ∧ r.call method path q d = r'.call method path q' d'
      ∧ '/' :: trimMatchesSlash (collapseSlashes path.data) = specNormalize path.data
      ∧ String.mk (specNormalize "/a//b/".data) = "/a/b"
      ∧ (r.call method path q d).code ≠ 200 := by
  have hnm : ¬(method ≠ Method.GET ∧ method ≠ Method.HEAD) := by
    rcases hm with h | h <;> simp [h]
  have hcall : ∀ (r₀ : ServableRouter) (q₀ : List (String × String)) (d₀ : DeviceType),
      r₀.call method path q₀ d₀
        = { code := 308,
            headers := [("location",
              String.mk ('/' :: trimMatchesSlash (collapseSlashes path.data)))],
            body := .empty } := by
    intro r₀ q₀ d₀
    unfold ServableRouter.call
    rw [if_neg hnm, if_pos hp, if_pos hv]
  refine ⟨hcall r q d, (hcall r q d).trans (hcall r' q' d').symm, ?_, by rfl, ?_⟩
  · exact slash_trim_eq_dropLast (collapseSlashes path.data)
      (collapseSlashes_head path.data hroot)
      (hasDoubleSlash_collapseSlashes path.data)
  · rw [hcall r q d]
    simp

/-- C9 (witness): `GET /a//b/` against an empty route table (and against
a route table with any handler) yields a 308 to `/a/b`. -/
theorem C9_redirect_normalization_witness :
    (ServableRouter.mk (fun _ => none) Default404).call .GET "/a//b/" [] .Desktop
      = { code := 308, headers := [("location", "/a/b")], body := .empty } :=
  (C9_redirect_normalization (ServableRouter.mk (fun _ => none) Default404)
    (ServableRouter.mk (fun _ => none) Default404) .GET "/a//b/" [] [] .Desktop .Desktop
    (Or.inl rfl) (by decide) (by decide) (by decide)).1

/-- C5 (counterexample): a zero-step chain does not return the original
bytes: `transform_bytes` still decodes and re-encodes, so with a codec
whose encoder emits `[42]`, input `[0]` comes back as `[42]`. -/
theorem C5_counterexample :
    TransformerChain.transform_bytes toyCodec ⟨[]⟩ [0] (some "image/png")
        = .ok ("image/png", [42])
      ∧ ([42] : List Nat) ≠ [0] :=
  ⟨rfl, by decide⟩

/-- C5 (amended): a zero-step chain is geometrically a no-op
(`transform_image` is the identity) and keeps the source codec (the output
MIME is the source codec's canonical MIME), but `transform_bytes` still
decodes and re-encodes: the output bytes are the re-encoding of the
decoded image.  The original bytes pass through untouched only when no
transform is requested at all (no `t` query parameter, any asset). -/
theorem C5_empty_chain_reencodes (codec : Codec) (bytes out : List Nat) (m : String)
    (fmt : ImageFormat) (img : Image)
    (hf : ImageFormat.fromMimeType m = some fmt)
    (hd : codec.decode fmt bytes = some img)
    (he : codec.encode fmt img = some out) :
    TransformerChain.transform_bytes codec ⟨[]⟩ bytes (some m)
        = .ok (fmt.toMimeType, out)
      ∧ TransformerChain.transform_image ⟨[]⟩ img = img
      ∧ (∀ (codec' : Codec) (tf : Bool) (a : StaticAsset) (ctx : RenderContext),
          queryGet ctx.query "t" = none →
          (StaticAsset.render codec' tf a ctx).body = .Static a.bytes) := by
  refine ⟨?_, rfl, ?_⟩
  · simp only [TransformerChain.transform_bytes, hf, List.getLast?_nil, Option.getD_none,
      bind, Except.bind, pure, Except.pure, hd, TransformerChain.transform_image,
      List.foldl_nil, he]
  · intro codec' tf a ctx hq
    unfold StaticAsset.render StaticAsset.pickTransform
    rw [hq]
    cases TransformerChain.mime_is_image a.mime.display <;> simp

/-- C5 (witness): the amended statement applied to the `[42]`-emitting
codec on input `[7]`. -/
theorem C5_empty_chain_reencodes_witness :
    TransformerChain.transform_bytes toyCodec ⟨[]⟩ [7] (some "image/png")
      = .ok (ImageFormat.toMimeType .Png, [42]) :=
  (C5_empty_chain_reencodes toyCodec [7] [42] "image/png" .Png ⟨1, 1⟩ rfl rfl rfl).1

/-- C1 (counterexample): `head` and `render` of a `StaticAsset` disagree.
(1) When the transform fails during `render` (corrupt image: every decode
fails), `head` reports 200 with MIME `image/png` while `render` reports
500 with no MIME.  (2) Even on a successful transform, the MIME spelling
can disagree: an asset declared `image/vnd.microsoft.icon` gets that MIME
from `head` but the codec's canonical `image/x-icon` from `render`. -/
theorem C1_counterexample :
    (StaticAsset.head (StaticAsset.mk [0] .Png (some 1209600))
        (RenderContext.mk .Desktop "/img" [("t", "maxdim(10,10)")])).meta
      = (200, some "image/png", some 1209600, false)
    ∧ (StaticAsset.render failingCodec false (StaticAsset.mk [0] .Png (some 1209600))
        (RenderContext.mk .Desktop "/img" [("t", "maxdim(10,10)")])).meta
      = (500, none, some 1209600, false)
    ∧ (StaticAsset.head (StaticAsset.mk [0] .Png (some 1209600))
        (RenderContext.mk .Desktop "/img" [("t", "maxdim(10,10)")])).code
      ≠ (StaticAsset.render failingCodec false (StaticAsset.mk [0] .Png (some 1209600))
        (RenderContext.mk .Desktop "/img" [("t", "maxdim(10,10)")])).code
    ∧ (StaticAsset.head (StaticAsset.mk [0] .Ico (some 1209600))
        (RenderContext.mk .Desktop "/img" [("t", "maxdim(10,10)")])).mime
      = some "image/vnd.microsoft.icon"
    ∧ (StaticAsset.render toyCodec false (StaticAsset.mk [0] .Ico (some 1209600))
        (RenderContext.mk .Desktop "/img" [("t", "maxdim(10,10)")])).mime
      = some "image/x-icon"
    ∧ (StaticAsset.head (StaticAsset.mk [0] .Ico (some 1209600))
        (RenderContext.mk .Desktop "/img" [("t", "maxdim(10,10)")])).mime
      ≠ (StaticAsset.render toyCodec false (StaticAsset.mk [0] .Ico (some 1209600))
        (RenderContext.mk .Desktop "/img" [("t", "maxdim(10,10)")])).mime := by
  refine ⟨rfl, rfl, by decide, rfl, rfl, by decide⟩

/-- C1 (amended): for `StaticAsset`, `head` and `render` agree on status,
MIME, ttl and immutability on every path where `render` runs no image
transform (no `t` parameter, a non-transformable MIME, or a chain parse
error, where both report 400); the immutability flag agrees on every
path.  When a transform runs: if the blocking task fails, `render`
reports 500 with no ttl while `head` reports 200; on codec success both
report 200 with the same ttl, and `render`'s MIME is the output codec's
canonical MIME (which can differ in spelling from `head`'s prediction,
per the counterexample); on codec failure `render` reports 500 with no
MIME while `head` reports 200 with a MIME. -/
theorem C1_head_render_agreement (codec : Codec) (tf : Bool) (a : StaticAsset)
    (ctx : RenderContext) :
    (StaticAsset.head a ctx).immutable = (StaticAsset.render codec tf a ctx).immutable
    ∧ (a.pickTransform ctx = .ok none →
        (StaticAsset.head a ctx).meta = (StaticAsset.render codec tf a ctx).meta)
    ∧ (∀ e, a.pickTransform ctx = .error e →
        (StaticAsset.head a ctx).meta = (StaticAsset.render codec tf a ctx).meta)
    ∧ (∀ tc, a.pickTransform ctx = .ok (some tc) → tf = true →
        (StaticAsset.render codec tf a ctx).code = 500
        ∧ (StaticAsset.render codec tf a ctx).ttl = none
        ∧ (StaticAsset.head a ctx).code = 200)
    ∧ (∀ tc m b, a.pickTransform ctx = .ok (some tc) → tf = false →
        tc.transform_bytes codec a.bytes (some a.mime.display) = .ok (m, b) →
        (StaticAsset.head a ctx).code = (StaticAsset.render codec tf a ctx).code
        ∧ (StaticAsset.head a ctx).ttl = (StaticAsset.render codec tf a ctx).ttl
        ∧ (StaticAsset.render codec tf a ctx).mime = some m)
    ∧ (∀ tc err, a.pickTransform ctx = .ok (some tc) → tf = false →
        tc.transform_bytes codec a.bytes (some a.mime.display) = .error err →
        (StaticAsset.head a ctx).code = 200
        ∧ (StaticAsset.render codec tf a ctx).code = 500
        ∧ (StaticAsset.render codec tf a ctx).mime = none
        ∧ (StaticAsset.head a ctx).mime ≠ none) := by
  refine ⟨?_, ?_, ?_, ?_, ?_, ?_⟩
  · rcases hpt : a.pickTransform ctx with e | o
    · simp [StaticAsset.head, StaticAsset.render, hpt]
    · rcases o with _ | tc
      · simp [StaticAsset.head, StaticAsset.render, hpt]
      · cases tf
        · rcases htb : tc.transform_bytes codec a.bytes (some a.mime.display) with e | p
          · simp [StaticAsset.head, StaticAsset.render, hpt, htb]
          · rcases p with ⟨m, b⟩
            simp [StaticAsset.head, StaticAsset.render, hpt, htb]
        · simp [StaticAsset.head, StaticAsset.render, hpt]
  · intro h
    simp [StaticAsset.head, StaticAsset.render, Rendered.meta, h]
  · intro e h
    simp [StaticAsset.head, StaticAsset.render, Rendered.meta, h]
  · intro tc h htf
    subst htf
    simp [StaticAsset.head, StaticAsset.render, h]
  · intro tc m b h htf htb
    subst htf
    simp [StaticAsset.head, StaticAsset.render, h, htb]
  · intro tc err h htf htb
    subst htf
    simp [StaticAsset.head, StaticAsset.render, h, htb]

/-- C1 (witness): the amended agreement applied where no transform is
requested: `head` and `render` report the same metadata. -/
theorem C1_head_render_agreement_witness :
    (StaticAsset.head (StaticAsset.mk [5] .Png none)
        (RenderContext.mk .Desktop "/x" [])).meta
      = (StaticAsset.render toyCodec false (StaticAsset.mk [5] .Png none)
        (RenderContext.mk .Desktop "/x" [])).meta :=
  (C1_head_render_agreement toyCodec false (StaticAsset.mk [5] .Png none)
    (RenderContext.mk .Desktop "/x" [])).2.1 rfl

end Servable


